import Mathlib

/-!
Verification of the firecrawl scrape controller
(src/apps/api/src/controllers/v1/scrape.ts) and of the crawl-state and
content-transform behaviour described by the specification. Functions of
this repository that are declared outside the given sources
(controllers/v1/types.ts, the crawl controller, the native html-to-markdown
library) are modelled from the specification and marked as such in their
doc comments.
-/

namespace Firecrawl

/-- Page options as consumed by scrapeController (fields taken from their
usage in scrape.ts: includeRawHtml, includeExtract, includeMarkdown). -/
structure PageOptions where
  includeRawHtml : Bool
  includeMarkdown : Bool
  includeExtract : Bool
deriving DecidableEq

/-- A document produced by the pipeline, restricted to the fields the
controller and the claims touch. `none` models an absent field and
`some s` a present field holding the string `s`. -/
structure Doc where
  markdown : Option String
  html : Option String
  rawHtml : Option String
  text : Option String
  error : Option String
deriving DecidableEq

/-- JavaScript truthiness of an optional string field: absent and the empty
string are falsy, every other string is truthy. -/
def truthyStr : Option String → Bool
  | none => false
  | some s => s != ""

/-- Embeds `if (doc && doc.rawHtml) delete doc.rawHtml` from scrape.ts:
the field is removed only when present and truthy (non-empty). -/
def deleteRawHtmlIfTruthy (d : Doc) : Doc :=
  if truthyStr d.rawHtml then { d with rawHtml := none } else d

/-- Embeds `if (doc && doc.markdown) delete doc.markdown` from scrape.ts:
the field is removed only when present and truthy (non-empty). -/
def deleteMarkdownIfTruthy (d : Doc) : Doc :=
  if truthyStr d.markdown then { d with markdown := none } else d

/-- Embeds the two forEach blocks of scrapeController (scrape.ts lines
71-87): first, when pageOptions is absent or includeRawHtml is unset,
rawHtml is deleted from each doc; then, when includeExtract is set and
includeMarkdown is not, markdown is deleted from each doc. -/
def postProcessDocs (pageOptions : Option PageOptions) (docs : List Doc) : List Doc :=
  let docs1 :=
    if pageOptions.isNone || !((pageOptions.getD ⟨false, false, false⟩).includeRawHtml) then
      docs.map deleteRawHtmlIfTruthy
    else docs
  match pageOptions with
  | some po =>
      if po.includeExtract && !po.includeMarkdown then
        docs1.map deleteMarkdownIfTruthy
      else docs1
  | none => docs1

/-- Extractor options as used by scrapeController: only the mode string is
consulted (for the LLM-parsing error suffix). -/
structure ExtractorOptions where
  mode : String
deriving DecidableEq

/-- A parsed scrape request body, restricted to the fields scrapeController
reads: url, origin, timeout, requested formats and the extract sub-options. -/
structure ScrapeRequest where
  url : String
  origin : Option String
  timeout : Option Nat
  formats : List String
  extract : Option ExtractorOptions
deriving DecidableEq

/-- Modelled from the spec: legacyScrapeOptions (declared in
controllers/v1/types.ts, not under src/). Per the spec, ScrapeOptions
carries `formats ⊂ {markdown, html, rawHtml, links, screenshot, extract}`;
the derived page options flag which formats were requested. -/
def legacyScrapeOptions (body : ScrapeRequest) : PageOptions :=
  { includeRawHtml := body.formats.contains "rawHtml"
    includeMarkdown := body.formats.contains "markdown"
    includeExtract := body.formats.contains "extract" }

/-- Modelled from the spec: legacyExtractorOptions (declared in
controllers/v1/types.ts, not under src/). The spec gives no field changes
for the mode field modelled here, so it is the field-preserving map. -/
def legacyExtractorOptions (e : ExtractorOptions) : ExtractorOptions :=
  { mode := e.mode }

/-- Modelled from the spec: legacyDocumentConverter (declared in
controllers/v1/types.ts, not under src/). The spec describes the 200
response data as a Document with the fields of section 3; on the fields
modelled here it is the field-preserving map. -/
def legacyDocumentConverter (d : Doc) : Doc :=
  { markdown := d.markdown
    html := d.html
    rawHtml := d.rawHtml
    text := d.text
    error := d.error }

/-- The payload data of the single-URL job built by scrapeController
(scrape.ts lines 38-48). -/
structure JobData where
  url : String
  mode : String
  team_id : String
  pageOptions : PageOptions
  extractorOptions : Option ExtractorOptions
  origin : Option String
  is_scrape : Bool
deriving DecidableEq

/-- The opts record of the job built by scrapeController (scrape.ts lines
52-54). -/
structure JobOpts where
  priority : Nat
deriving DecidableEq

/-- The job handed to startWebScraperPipeline by scrapeController. -/
structure ScrapeJob where
  id : String
  data : JobData
  opts : JobOpts
deriving DecidableEq

/-- Embeds the job construction inside the startWebScraperPipeline call of
scrapeController (scrape.ts lines 36-57): a single_urls scrape job with
priority 100. -/
def mkScrapeJob (body : ScrapeRequest) (team_id jobId : String) : ScrapeJob :=
  { id := jobId
    data :=
      { url := body.url
        mode := "single_urls"
        team_id := team_id
        pageOptions := legacyScrapeOptions body
        extractorOptions := body.extract.map legacyExtractorOptions
        origin := body.origin
        is_scrape := true }
    opts := { priority := 100 } }

/-- The JSON body of a scrape response: success flag, optional data
document, optional scrape_id and optional error string. -/
structure ScrapeResponseBody where
  success : Bool
  data : Option Doc
  scrape_id : Option String
  error : Option String
deriving DecidableEq

/-- An HTTP response as produced by the controller: status code and body. -/
structure HttpResponse where
  status : Nat
  body : ScrapeResponseBody
deriving DecidableEq

/-- Substring containment, used to embed `origin?.includes("website")`:
a string contains the pattern exactly when splitting on the pattern yields
more than one piece. -/
def containsSubstr (s pat : String) : Bool :=
  (s.splitOn pat).length != 1

/-- Embeds the JavaScript interpolation
`error && error?.message ? error.message : error` applied to an Error whose
message is msg: a truthy (non-empty) message prints itself, an Error with an
empty message stringifies to "Error". -/
def jsErrorDisplay (msg : String) : String :=
  if msg = "" then "Error" else msg

/-- Embeds the error string built in the catch block of scrapeController
(scrape.ts lines 113-121), including the literal space between the two
interpolations and the LLM-parsing suffix added when extractor options are
present with a mode other than markdown. -/
def scrapeErrorMessage (msg : String) (extractorOptions : Option ExtractorOptions) : String :=
  "(Internal server error) - " ++ jsErrorDisplay msg ++ " " ++
    (match extractorOptions with
     | some eo => if eo.mode != "markdown" then " - Could be due to LLM parsing issues" else ""
     | none => "")

/-- The destructured result of startWebScraperPipeline as read by the
controller: success flag, message and docs list. -/
structure PipelineResult where
  success : Bool
  message : String
  docs : List Doc
deriving DecidableEq

/-- Outcome of awaiting startWebScraperPipeline: either it returned a
result, or it threw with some message. -/
inductive PipelineOutcome where
  | ok (r : PipelineResult)
  | threw (msg : String)
deriving DecidableEq

/-- Embeds the body of scrapeController after request parsing (scrape.ts
lines 23-123), as a function of the parsed body, the generated job id and
the pipeline outcome. A pipeline result with success = false is thrown as
an Error carrying the message and lands in the catch block, exactly like a
pipeline throw. earlyReturn is initialized to false and never reassigned;
the silent return is modelled as the `none` result. -/
def runScrapeController (body : ScrapeRequest) (jobId : String)
    (outcome : PipelineOutcome) : Option HttpResponse :=
  let origin := body.origin
  let pageOptions := legacyScrapeOptions body
  let extractorOptions := body.extract.map legacyExtractorOptions
  let earlyReturn := false
  match outcome with
  | .threw msg =>
      some { status := 500
             body := { success := false, data := none, scrape_id := none
                       error := some (scrapeErrorMessage msg extractorOptions) } }
  | .ok r =>
      if !r.success then
        some { status := 500
               body := { success := false, data := none, scrape_id := none
                         error := some (scrapeErrorMessage r.message extractorOptions) } }
      else if earlyReturn then
        none
      else
        let docs := postProcessDocs (some pageOptions) r.docs
        some { status := 200
               body := { success := true
                         data := docs.head?.map legacyDocumentConverter
                         scrape_id :=
                           match origin with
                           | some o => if containsSubstr o "website" then some jobId else none
                           | none => none
                         error := none } }

/-- A raw, not yet validated request body: a list of key-value pairs. -/
structure RawBody where
  pairs : List (String × String)
deriving DecidableEq

/-- Modelled from the spec: the closed set of keys a scrape request body may
carry, from section 3 ScrapeOptions plus the url and origin fields the
controller reads. -/
def allowedScrapeKeys : List String :=
  ["url", "formats", "onlyMainContent", "includeTags", "excludeTags", "waitFor",
   "timeout", "headers", "mobile", "skipTlsVerification", "removeBase64Images",
   "blockAds", "proxy", "extract", "origin"]

/-- First value bound to a key in a raw body, if any. -/
def lookupKey (raw : RawBody) (k : String) : Option String :=
  (raw.pairs.find? (fun kv => kv.fst == k)).map Prod.snd

/-- Builds the parsed request from a raw body that passed validation. -/
def buildScrapeRequest (raw : RawBody) : ScrapeRequest :=
  { url := (lookupKey raw "url").getD ""
    origin := lookupKey raw "origin"
    timeout := (lookupKey raw "timeout").map String.length
    formats := ((lookupKey raw "formats").getD "markdown").splitOn ","
    extract := (lookupKey raw "extract").map (fun m => { mode := m }) }

/-- Modelled from the spec: scrapeRequestSchema.parse (declared in
controllers/v1/types.ts, not under src/). Per the design notes,
ScrapeOptions is a closed set and unknown keys must be rejected at the
boundary; validation is a pure function. Parsing succeeds exactly when
every key of the body belongs to the closed set. -/
def scrapeRequestSchemaParse (raw : RawBody) : Option ScrapeRequest :=
  if raw.pairs.all (fun kv => allowedScrapeKeys.contains kv.fst) then
    some (buildScrapeRequest raw)
  else
    none

/-- Result of the controller entry point: a validation rejection at the
boundary, or a handled request with the controller response. -/
inductive EntryResult where
  | badRequest
  | handled (resp : Option HttpResponse)
deriving DecidableEq

/-- Embeds the controller entry: `req.body = scrapeRequestSchema.parse(req.body)`
is the first statement of scrapeController (scrape.ts line 22); a parse
failure rejects the request before any scraping work, otherwise the
controller body runs on the parsed request. -/
def scrapeEntry (raw : RawBody) (jobId : String) (outcome : PipelineOutcome) : EntryResult :=
  match scrapeRequestSchemaParse raw with
  | none => .badRequest
  | some req => .handled (runScrapeController req jobId outcome)

/-- Modelled from the spec: options passed to the opaque native
html-to-markdown conversion (src/lib/go-html-to-md, built by the Dockerfile
but not under src/). -/
structure ConvertOptions where
  onlyMainContent : Bool
  removeBase64Images : Bool
deriving DecidableEq

/-- Tag stripping over a character list: characters between < and > are
dropped, the rest kept. Used to give the modelled converter concrete
computational content. -/
def stripTagChars : List Char → Bool → List Char
  | [], _ => []
  | c :: cs, inTag =>
      if c = '<' then stripTagChars cs true
      else if c = '>' then stripTagChars cs false
      else if inTag then stripTagChars cs true
      else c :: stripTagChars cs inTag

/-- Modelled from the spec: the opaque native convert(html, options) of the
html-to-markdown sub-interface (section 6), required to be deterministic
and to perform no I/O; modelled as a pure function of its two arguments. -/
def htmlToMarkdown (html : String) (options : ConvertOptions) : String :=
  let body := String.mk (stripTagChars html.data false)
  if options.onlyMainContent then body.trim else body

/-- Modelled from the spec: the per-crawl record (section 3 CrawlState),
restricted to the fields the crawl-bound invariant and the admissibility
predicate speak about: the page limit, the sets of visited, enqueued,
completed and failed URLs, and the cancelled flag. -/
structure CrawlState where
  limit : Nat
  visited : Finset String
  enqueued : Finset String
  completed : Finset String
  failed : Finset String
  cancelled : Bool
deriving DecidableEq

/-- Modelled from the spec: the per-crawl configuration the section 4.D
admissibility predicate consults. The registrable domain and canonical path
of the crawl root are carried as precomputed fields (extracting a
registrable domain needs the external public-suffix list); robots.txt
consultation (cached per host) is carried as a snapshot predicate on URLs;
mediaEnabled is the explicit enablement of binary media that section 4.D
mentions. The remaining fields are the CrawlOptions of section 3 that
section 4.D reads. -/
structure CrawlConfig where
  rootDomain : String
  rootPath : String
  maxDepth : Nat
  includePaths : List String
  excludePaths : List String
  allowBackwardLinks : Bool
  allowExternalLinks : Bool
  mediaEnabled : Bool
  robotsAllows : String → Bool

/-- Whether the first character list starts with the second. -/
def charsStartWith : List Char → List Char → Bool
  | _, [] => true
  | [], _ :: _ => false
  | c :: cs, p :: ps => c == p && charsStartWith cs ps

/-- Whether the first character list ends with the second. -/
def charsEndWith (s p : List Char) : Bool :=
  charsStartWith s.reverse p.reverse

/-- Whether the first character list contains the second as a contiguous
sublist. -/
def charsContain : List Char → List Char → Bool
  | [], p => p.isEmpty
  | c :: cs, p => charsStartWith (c :: cs) p || charsContain cs p

/-- The characters of a URL after its http or https scheme prefix. -/
def urlRestChars (u : String) : List Char :=
  if charsStartWith u.data "https://".data then u.data.drop 8
  else if charsStartWith u.data "http://".data then u.data.drop 7
  else u.data

/-- The characters before the first slash. -/
def takeUntilSlash : List Char → List Char
  | [] => []
  | c :: cs => if c = '/' then [] else c :: takeUntilSlash cs

/-- The characters from the first slash on. -/
def dropUntilSlash : List Char → List Char
  | [] => []
  | c :: cs => if c = '/' then c :: cs else dropUntilSlash cs

/-- The host component of a URL: the part after the scheme and before the
first slash. -/
def urlHost (u : String) : String :=
  String.mk (takeUntilSlash (urlRestChars u))

/-- The path component of a URL: everything from the first slash after the
host, defaulting to the root path. -/
def urlPath (u : String) : String :=
  match dropUntilSlash (urlRestChars u) with
  | [] => "/"
  | c :: cs => String.mk (c :: cs)

/-- A host matches a registrable domain when it equals the domain or is one
of its subdomains. -/
def hostMatchesDomain (host domain : String) : Bool :=
  host == domain || charsEndWith host.data ('.' :: domain.data)

/-- Modelled from the spec: the binary media blacklist of section 4.D
(given there as .pdf, .zip, .png and an ellipsis; a closed list of common
binary extensions stands in for the ellipsis). -/
def mediaBlacklist : List String :=
  [".pdf", ".zip", ".png", ".jpg", ".jpeg", ".gif", ".mp4", ".mp3",
   ".docx", ".xlsx", ".pptx", ".tar", ".gz", ".exe", ".dmg"]

/-- Modelled from the spec: the admissibility predicate of section 4.D.
A URL at a given depth is admissible iff the scheme is http or https; the
host equals the roots registrable domain or a subdomain of it, unless
allowExternalLinks; the path carries no blacklisted binary media extension,
unless explicitly enabled; the cached robots.txt decision permits the URL;
the path matches at least one includePaths pattern (if any are set) and no
excludePaths pattern (patterns modelled as substring containment); the
depth does not exceed maxDepth; the URL is in neither the visited nor the
enqueued set; and, unless allowBackwardLinks, the path extends the root
path as a prefix. -/
def admissible (cfg : CrawlConfig) (s : CrawlState) (u : String) (depth : Nat) : Bool :=
  (charsStartWith u.data "http://".data || charsStartWith u.data "https://".data) &&
  (cfg.allowExternalLinks || hostMatchesDomain (urlHost u) cfg.rootDomain) &&
  (cfg.mediaEnabled || !(mediaBlacklist.any (fun ext => charsEndWith (urlPath u).data ext.data))) &&
  cfg.robotsAllows u &&
  (cfg.includePaths.isEmpty ||
    cfg.includePaths.any (fun pat => charsContain (urlPath u).data pat.data)) &&
  !(cfg.excludePaths.any (fun pat => charsContain (urlPath u).data pat.data)) &&
  decide (depth ≤ cfg.maxDepth) &&
  !(decide (u ∈ s.visited)) &&
  !(decide (u ∈ s.enqueued)) &&
  (cfg.allowBackwardLinks || charsStartWith (urlPath u).data cfg.rootPath.data)

/-- Modelled from the spec: the initial state of a crawl with the given
page limit: empty sets, not cancelled. -/
def initialCrawlState (limit : Nat) : CrawlState :=
  { limit := limit, visited := ∅, enqueued := ∅, completed := ∅, failed := ∅
    cancelled := false }

/-- Modelled from the spec: the events of the crawl controller life cycle
of section 4.H that touch the crawl-bound invariant: enqueuing a child URL
at a depth, completing a page, failing a page, cancelling the crawl. -/
inductive CrawlEvent where
  | enqueue (u : String) (depth : Nat)
  | completePage (u : String)
  | failPage (u : String)
  | cancel
deriving DecidableEq

/-- Modelled from the spec: one transition of the crawl controller
(section 4.H). A child is enqueued only while the crawl is not cancelled,
the URL is admissible in the current state and page budget remains, and it
is then recorded in enqueued and visited; a page completes or fails only
after having been enqueued and at most once; a crawl may be cancelled at
any time. An event whose guard fails is not a transition of the crawl. -/
def crawlStepFn (cfg : CrawlConfig) (s : CrawlState) (e : CrawlEvent) : Option CrawlState :=
  match e with
  | .enqueue u depth =>
      if s.cancelled = false ∧ admissible cfg s u depth = true ∧ s.enqueued.card < s.limit then
        some { s with enqueued := insert u s.enqueued, visited := insert u s.visited }
      else none
  | .completePage u =>
      if u ∈ s.enqueued ∧ u ∉ s.completed ∧ u ∉ s.failed then
        some { s with completed := insert u s.completed }
      else none
  | .failPage u =>
      if u ∈ s.enqueued ∧ u ∉ s.completed ∧ u ∉ s.failed then
        some { s with failed := insert u s.failed }
      else none
  | .cancel => some { s with cancelled := true }

/-- Runs a list of crawl events from a state; `none` when some event's
guard fails along the way. -/
def crawlExec (cfg : CrawlConfig) (s : CrawlState) : List CrawlEvent → Option CrawlState
  | [] => some s
  | e :: es =>
      match crawlStepFn cfg s e with
      | some t => crawlExec cfg t es
      | none => none

/-- A sample pipeline document used by concrete witnesses. -/
def sampleDoc : Doc :=
  { markdown := some "# Hi", html := some "<p>Hi</p>", rawHtml := some "<html>",
    text := some "Hi", error := none }

/-- A sample parsed request used by concrete witnesses. -/
def sampleRequest : ScrapeRequest :=
  { url := "https://example.com", origin := some "website", timeout := none,
    formats := ["markdown"], extract := none }

/-- A sample successful pipeline result used by concrete witnesses. -/
def sampleResult : PipelineResult :=
  { success := true, message := "", docs := [sampleDoc] }

theorem deleteRawHtmlIfTruthy_markdown (d : Doc) :
    (deleteRawHtmlIfTruthy d).markdown = d.markdown := by
  unfold deleteRawHtmlIfTruthy
  split <;> rfl

theorem deleteMarkdownIfTruthy_rawHtml (d : Doc) :
    (deleteMarkdownIfTruthy d).rawHtml = d.rawHtml := by
  unfold deleteMarkdownIfTruthy
  split <;> rfl

theorem postProcessDocs_length (po : Option PageOptions) (docs : List Doc) :
    (postProcessDocs po docs).length = docs.length := by
  unfold postProcessDocs
  cases po <;> dsimp only
  · split <;> simp
  · split <;> split <;> simp

/-- C4: every single-URL scrape job submitted by the scrape controller is
created with priority 100 (and mode single_urls). -/
theorem scrape_job_priority (body : ScrapeRequest) (team_id jobId : String) :
    (mkScrapeJob body team_id jobId).opts.priority = 100 ∧
    (mkScrapeJob body team_id jobId).data.mode = "single_urls" :=
  ⟨rfl, rfl⟩

/-- C10: the early-return branch of the scrape controller is unreachable:
earlyReturn is initialized to false and never reassigned, so the controller
always sends a response (the modelled silent return, `none`, never
happens), for every outcome of the pipeline. -/
theorem controller_always_responds (body : ScrapeRequest) (jobId : String)
    (outcome : PipelineOutcome) :
    (runScrapeController body jobId outcome).isSome = true := by
  cases outcome with
  | threw m => rfl
  | ok r =>
      unfold runScrapeController
      cases hr : r.success <;> simp [hr]

/-- C6: the html-to-markdown conversion is deterministic: two runs of the
transform on identical raw HTML and identical options produce byte-identical
markdown. -/
theorem htmlToMarkdown_deterministic (html : String) (options : ConvertOptions)
    (r1 r2 : String) (h1 : r1 = htmlToMarkdown html options)
    (h2 : r2 = htmlToMarkdown html options) : r1 = r2 :=
  h1.trans h2.symm

/-- Witness for C6 at a concrete input. -/
theorem htmlToMarkdown_deterministic_witness :
    htmlToMarkdown "<h1>Hi</h1>" ⟨false, false⟩ = htmlToMarkdown "<h1>Hi</h1>" ⟨false, false⟩ :=
  htmlToMarkdown_deterministic "<h1>Hi</h1>" ⟨false, false⟩ _ _ rfl rfl

/-- C2: for every scrape request whose pipeline run succeeds, the controller
responds with HTTP 200, success = true, and a data field that is present and
equal to the legacyDocumentConverter image of the first document of the
pipeline docs (as they stand after the in-place rawHtml and markdown
adjustments of postProcessDocs, which mutate the same document objects). -/
theorem scrape_success_response (body : ScrapeRequest) (jobId : String)
    (r : PipelineResult) (hs : r.success = true) (hne : r.docs ≠ []) :
    ∃ resp, runScrapeController body jobId (.ok r) = some resp ∧
      resp.status = 200 ∧ resp.body.success = true ∧
      resp.body.data =
        ((postProcessDocs (some (legacyScrapeOptions body)) r.docs).head?).map
          legacyDocumentConverter ∧
      resp.body.data.isSome = true := by
  have h : runScrapeController body jobId (.ok r) =
      some { status := 200
             body := { success := true
                       data := ((postProcessDocs (some (legacyScrapeOptions body)) r.docs).head?).map
                         legacyDocumentConverter
                       scrape_id :=
                         match body.origin with
                         | some o => if containsSubstr o "website" then some jobId else none
                         | none => none
                       error := none } } := by
    unfold runScrapeController
    simp [hs]
  refine ⟨_, h, rfl, rfl, rfl, ?_⟩
  have hlen := postProcessDocs_length (some (legacyScrapeOptions body)) r.docs
  cases hpp : postProcessDocs (some (legacyScrapeOptions body)) r.docs with
  | nil =>
      exfalso
      rw [hpp] at hlen
      exact hne (List.length_eq_zero.mp hlen.symm)
  | cons d ds => simp [hpp]

/-- Witness for C2 at a concrete request and pipeline result. -/
theorem scrape_success_response_witness :
    ∃ resp, runScrapeController sampleRequest "jid" (.ok sampleResult) = some resp ∧
      resp.status = 200 ∧ resp.body.success = true ∧
      resp.body.data =
        ((postProcessDocs (some (legacyScrapeOptions sampleRequest)) sampleResult.docs).head?).map
          legacyDocumentConverter ∧
      resp.body.data.isSome = true :=
  scrape_success_response sampleRequest "jid" sampleResult rfl (by decide)

/-- C3: for every scrape request whose pipeline run fails (the pipeline
reports success = false, which the controller rethrows, or the pipeline
throws), the controller responds with HTTP 500 (a 5xx status), a body with
success = false and a present error string, and never with success = true. -/
theorem scrape_failure_response (body : ScrapeRequest) (jobId : String)
    (outcome : PipelineOutcome)
    (hf : (∃ m, outcome = .threw m) ∨ ∃ r, outcome = .ok r ∧ r.success = false) :
    ∃ resp, runScrapeController body jobId outcome = some resp ∧
      resp.status = 500 ∧ resp.body.success = false ∧
      (∃ e, resp.body.error = some e) ∧ ¬resp.body.success = true := by
  rcases hf with ⟨m, hm⟩ | ⟨r, hr, hrs⟩
  · subst hm
    exact ⟨_, rfl, rfl, rfl, ⟨_, rfl⟩, by simp⟩
  · subst hr
    have h : runScrapeController body jobId (.ok r) =
        some { status := 500
               body := { success := false, data := none, scrape_id := none
                         error := some (scrapeErrorMessage r.message
                           (body.extract.map legacyExtractorOptions)) } } := by
      unfold runScrapeController
      simp [hrs]
    exact ⟨_, h, rfl, rfl, ⟨_, rfl⟩, by simp⟩

/-- Witness for C3 at a concrete request and a throwing pipeline. -/
theorem scrape_failure_response_witness :
    ∃ resp, runScrapeController sampleRequest "jid" (.threw "boom") = some resp ∧
      resp.status = 500 ∧ resp.body.success = false ∧
      (∃ e, resp.body.error = some e) ∧ ¬resp.body.success = true :=
  scrape_failure_response sampleRequest "jid" (.threw "boom") (Or.inl ⟨"boom", rfl⟩)

/-- C9: in every successful scrape response, the scrape_id equals the jobs
UUID exactly when the request carries an origin string containing the
substring website, and is absent otherwise. -/
theorem scrape_id_origin (body : ScrapeRequest) (jobId : String)
    (r : PipelineResult) (hs : r.success = true) :
    ∃ resp, runScrapeController body jobId (.ok r) = some resp ∧
      resp.body.scrape_id =
        (match body.origin with
         | some o => if containsSubstr o "website" then some jobId else none
         | none => none) := by
  have h : runScrapeController body jobId (.ok r) =
      some { status := 200
             body := { success := true
                       data := ((postProcessDocs (some (legacyScrapeOptions body)) r.docs).head?).map
                         legacyDocumentConverter
                       scrape_id :=
                         match body.origin with
                         | some o => if containsSubstr o "website" then some jobId else none
                         | none => none
                       error := none } } := by
    unfold runScrapeController
    simp [hs]
  exact ⟨_, h, rfl⟩

/-- Witness for C9 at a concrete request whose origin contains website. -/
theorem scrape_id_origin_witness :
    ∃ resp, runScrapeController sampleRequest "jid" (.ok sampleResult) = some resp ∧
      resp.body.scrape_id =
        (match sampleRequest.origin with
         | some o => if containsSubstr o "website" then some "jid" else none
         | none => none) :=
  scrape_id_origin sampleRequest "jid" sampleResult rfl

/-- C1 counterexample: a successful scrape whose request asks for the
extract format without the markdown format returns a 200 response whose
document has no error field and no markdown field: the controller deletes
markdown (scrape.ts lines 79-87), contradicting the claim that markdown is
always present when error is absent. -/
theorem markdown_present_counterexample :
    runScrapeController
      { url := "https://example.com", origin := none, timeout := none
        formats := ["extract"], extract := none } "jid"
      (.ok { success := true, message := ""
             docs := [{ markdown := some "# Hi", html := some "<p>Hi</p>", rawHtml := none
                        text := none, error := none }] }) =
    some { status := 200
           body := { success := true
                     data := some { markdown := none, html := some "<p>Hi</p>", rawHtml := none
                                    text := none, error := none }
                     scrape_id := none, error := none } } := by
  rfl

/-- C1 (amended): for every Document returned by a successful scrape whose
pipeline document carries markdown and no error, the markdown field is
present in the returned document, unless the request sets the extract
format without the markdown format, in which case the controller deletes
markdown. -/
theorem markdown_present_amended (body : ScrapeRequest) (jobId : String)
    (r : PipelineResult) (d : Doc) (ds : List Doc) (m : String)
    (hpo : (legacyScrapeOptions body).includeExtract = false ∨
           (legacyScrapeOptions body).includeMarkdown = true)
    (hs : r.success = true) (hd : r.docs = d :: ds)
    (_he : d.error = none) (hm : d.markdown = some m) :
    ∃ resp doc, runScrapeController body jobId (.ok r) = some resp ∧
      resp.body.data = some doc ∧ doc.markdown = some m := by
  have h : runScrapeController body jobId (.ok r) =
      some { status := 200
             body := { success := true
                       data := ((postProcessDocs (some (legacyScrapeOptions body)) r.docs).head?).map
                         legacyDocumentConverter
                       scrape_id :=
                         match body.origin with
                         | some o => if containsSubstr o "website" then some jobId else none
                         | none => none
                       error := none } } := by
    unfold runScrapeController
    simp [hs]
  have hext : ((legacyScrapeOptions body).includeExtract &&
      !(legacyScrapeOptions body).includeMarkdown) = false := by
    rcases hpo with h1 | h1 <;> simp [h1]
  have hpp : postProcessDocs (some (legacyScrapeOptions body)) r.docs =
      if !(legacyScrapeOptions body).includeRawHtml then
        r.docs.map deleteRawHtmlIfTruthy
      else r.docs := by
    unfold postProcessDocs
    simp [hext]
  have hhead : ∃ d0, (postProcessDocs (some (legacyScrapeOptions body)) r.docs).head? = some d0 ∧
      d0.markdown = some m := by
    rw [hpp, hd]
    by_cases hraw : (legacyScrapeOptions body).includeRawHtml
    · refine ⟨d, ?_, hm⟩
      simp [hraw]
    · refine ⟨deleteRawHtmlIfTruthy d, ?_, ?_⟩
      · simp [hraw]
      · rw [deleteRawHtmlIfTruthy_markdown]
        exact hm
  obtain ⟨d0, hd0, hd0m⟩ := hhead
  refine ⟨_, legacyDocumentConverter d0, h, ?_, ?_⟩
  · simp [hd0]
  · simpa [legacyDocumentConverter] using hd0m

/-- Witness for the amended C1 at a concrete request and document. -/
theorem markdown_present_amended_witness :
    ∃ resp doc, runScrapeController sampleRequest "jid" (.ok sampleResult) = some resp ∧
      resp.body.data = some doc ∧ doc.markdown = some "# Hi" :=
  markdown_present_amended sampleRequest "jid" sampleResult sampleDoc [] "# Hi"
    (Or.inl rfl) rfl rfl rfl rfl

theorem crawlExec_invariant (cfg : CrawlConfig) (tr : List CrawlEvent) :
    ∀ s0 s : CrawlState, crawlExec cfg s0 tr = some s →
      s0.completed ⊆ s0.enqueued → s0.failed ⊆ s0.enqueued →
      Disjoint s0.completed s0.failed → s0.enqueued.card ≤ s0.limit →
      s.limit = s0.limit ∧
      s.completed ⊆ s.enqueued ∧ s.failed ⊆ s.enqueued ∧
      Disjoint s.completed s.failed ∧ s.enqueued.card ≤ s.limit ∧
      ∀ u ∈ s.enqueued, u ∈ s0.enqueued ∨
        ∃ tr1 tr2 depth pre, tr = tr1 ++ CrawlEvent.enqueue u depth :: tr2 ∧
          crawlExec cfg s0 tr1 = some pre ∧ admissible cfg pre u depth = true := by
  induction tr with
  | nil =>
      intro s0 s hex hc hf hdisj hcard
      rw [crawlExec] at hex
      obtain rfl : s0 = s := Option.some_injective _ hex
      exact ⟨rfl, hc, hf, hdisj, hcard, fun u hu => Or.inl hu⟩
  | cons e es ih =>
      intro s0 s hex hc hf hdisj hcard
      rw [crawlExec] at hex
      cases hstep : crawlStepFn cfg s0 e with
      | none => rw [hstep] at hex; cases hex
      | some t =>
          rw [hstep] at hex
          have hlift : ∀ u : String,
              (∃ tr1 tr2 depth pre, es = tr1 ++ CrawlEvent.enqueue u depth :: tr2 ∧
                crawlExec cfg t tr1 = some pre ∧ admissible cfg pre u depth = true) →
              ∃ tr1 tr2 depth pre, e :: es = tr1 ++ CrawlEvent.enqueue u depth :: tr2 ∧
                crawlExec cfg s0 tr1 = some pre ∧ admissible cfg pre u depth = true := by
            rintro u ⟨tr1, tr2, depth, pre, htr, hpre, hadm⟩
            refine ⟨e :: tr1, tr2, depth, pre, by simp [htr], ?_, hadm⟩
            rw [crawlExec, hstep]
            exact hpre
          cases e with
          | enqueue v dv =>
              rw [crawlStepFn] at hstep
              split at hstep
              · rename_i hcond
                obtain ⟨hcan, hadm, hlt⟩ := hcond
                obtain rfl : ({ s0 with enqueued := insert v s0.enqueued
                                        visited := insert v s0.visited } : CrawlState) = t :=
                  Option.some_injective _ hstep
                obtain ⟨hl, hc2, hf2, hdisj2, hcard2, henq⟩ :=
                  ih _ s hex (hc.trans (Finset.subset_insert v s0.enqueued))
                    (hf.trans (Finset.subset_insert v s0.enqueued)) hdisj
                    ((Finset.card_insert_le v s0.enqueued).trans hlt)
                refine ⟨hl, hc2, hf2, hdisj2, hcard2, ?_⟩
                intro u hu
                rcases henq u hu with h | h
                · rcases Finset.mem_insert.mp h with h | h
                  · subst h
                    exact Or.inr ⟨[], es, dv, s0, rfl, rfl, hadm⟩
                  · exact Or.inl h
                · exact Or.inr (hlift u h)
              · cases hstep
          | completePage v =>
              rw [crawlStepFn] at hstep
              split at hstep
              · rename_i hcond
                obtain ⟨hv, hvc, hvf⟩ := hcond
                obtain rfl : ({ s0 with completed := insert v s0.completed } : CrawlState) = t :=
                  Option.some_injective _ hstep
                obtain ⟨hl, hc2, hf2, hdisj2, hcard2, henq⟩ :=
                  ih _ s hex (Finset.insert_subset hv hc) hf
                    ((Finset.disjoint_insert_left).mpr ⟨hvf, hdisj⟩) hcard
                refine ⟨hl, hc2, hf2, hdisj2, hcard2, ?_⟩
                intro u hu
                rcases henq u hu with h | h
                · exact Or.inl h
                · exact Or.inr (hlift u h)
              · cases hstep
          | failPage v =>
              rw [crawlStepFn] at hstep
              split at hstep
              · rename_i hcond
                obtain ⟨hv, hvc, hvf⟩ := hcond
                obtain rfl : ({ s0 with failed := insert v s0.failed } : CrawlState) = t :=
                  Option.some_injective _ hstep
                obtain ⟨hl, hc2, hf2, hdisj2, hcard2, henq⟩ :=
                  ih _ s hex hc (Finset.insert_subset hv hf)
                    ((Finset.disjoint_insert_right).mpr ⟨hvc, hdisj⟩) hcard
                refine ⟨hl, hc2, hf2, hdisj2, hcard2, ?_⟩
                intro u hu
                rcases henq u hu with h | h
                · exact Or.inl h
                · exact Or.inr (hlift u h)
              · cases hstep
          | cancel =>
              rw [crawlStepFn] at hstep
              obtain rfl : ({ s0 with cancelled := true } : CrawlState) = t :=
                Option.some_injective _ hstep
              obtain ⟨hl, hc2, hf2, hdisj2, hcard2, henq⟩ :=
                ih _ s hex hc hf hdisj hcard
              refine ⟨hl, hc2, hf2, hdisj2, hcard2, ?_⟩
              intro u hu
              rcases henq u hu with h | h
              · exact Or.inl h
              · exact Or.inr (hlift u h)

/-- C7: for every crawl run (every event trace executed from the initial
state), the number of completed URLs plus the number of failed URLs never
exceeds the crawl page limit, and every URL in completed or failed was
enqueued by an enqueue event of that very trace whose guard checked the
admissibility predicate in the state immediately before that event: the
prefix of the trace up to the event reaches a state in which the URL was
admissible at its depth. -/
theorem crawl_bound (cfg : CrawlConfig) (limit : Nat) (tr : List CrawlEvent)
    (s : CrawlState) (hex : crawlExec cfg (initialCrawlState limit) tr = some s) :
    s.completed.card + s.failed.card ≤ s.limit ∧
    ∀ u ∈ s.completed ∪ s.failed,
      ∃ tr1 tr2 depth pre, tr = tr1 ++ CrawlEvent.enqueue u depth :: tr2 ∧
        crawlExec cfg (initialCrawlState limit) tr1 = some pre ∧
        admissible cfg pre u depth = true := by
  obtain ⟨hl, hc, hf, hdisj, hcard, henq⟩ :=
    crawlExec_invariant cfg tr (initialCrawlState limit) s hex
      (Finset.Subset.refl _) (Finset.Subset.refl _) (by simp [initialCrawlState])
      (by simp [initialCrawlState])
  constructor
  · calc s.completed.card + s.failed.card
        = (s.completed ∪ s.failed).card := (Finset.card_union_of_disjoint hdisj).symm
      _ ≤ s.enqueued.card := Finset.card_le_card (Finset.union_subset hc hf)
      _ ≤ s.limit := hcard
  · intro u hu
    have hu2 : u ∈ s.enqueued := by
      rcases Finset.mem_union.mp hu with h | h
      · exact hc h
      · exact hf h
    rcases henq u hu2 with h | h
    · simp [initialCrawlState] at h
    · exact h

/-- A sample crawl configuration used by the C7 witness. -/
def sampleConfig : CrawlConfig :=
  { rootDomain := "a.test", rootPath := "/", maxDepth := 1
    includePaths := [], excludePaths := []
    allowBackwardLinks := false, allowExternalLinks := false
    mediaEnabled := false, robotsAllows := fun _ => true }

/-- A sample crawl trace used by the C7 witness: the root is enqueued at
depth 0 and then completes. -/
def sampleTrace : List CrawlEvent :=
  [.enqueue "https://a.test/" 0, .completePage "https://a.test/"]

/-- The state the sample trace reaches from the initial state. -/
def sampleFinal : CrawlState :=
  { limit := 5
    visited := {"https://a.test/"}
    enqueued := {"https://a.test/"}
    completed := {"https://a.test/"}
    failed := ∅
    cancelled := false }

/-- Witness for C7 at a concrete crawl configuration and trace. -/
theorem crawl_bound_witness :
    sampleFinal.completed.card + sampleFinal.failed.card ≤ sampleFinal.limit ∧
    ∀ u ∈ sampleFinal.completed ∪ sampleFinal.failed,
      ∃ tr1 tr2 depth pre, sampleTrace = tr1 ++ CrawlEvent.enqueue u depth :: tr2 ∧
        crawlExec sampleConfig (initialCrawlState 5) tr1 = some pre ∧
        admissible sampleConfig pre u depth = true :=
  crawl_bound sampleConfig 5 sampleTrace sampleFinal (by decide)

/-- C8 counterexample: with includeRawHtml unset, a successful scrape whose
pipeline document carries rawHtml equal to the empty string returns that
document with the rawHtml field still present: the controller only deletes
a truthy rawHtml (`if (doc && doc.rawHtml) delete doc.rawHtml`), and the
empty string is falsy in JavaScript. -/
theorem rawHtml_removed_counterexample :
    runScrapeController
      { url := "https://example.com", origin := none, timeout := none
        formats := ["markdown"], extract := none } "jid"
      (.ok { success := true, message := ""
             docs := [{ markdown := some "# Hi", html := none, rawHtml := some ""
                        text := none, error := none }] }) =
    some { status := 200
           body := { success := true
                     data := some { markdown := some "# Hi", html := none, rawHtml := some ""
                                    text := none, error := none }
                     scrape_id := none, error := none } } := by
  rfl

/-- C8 (amended): when the request does not set the rawHtml format (or page
options are absent), every document after the controller post-processing
has rawHtml absent or equal to the empty string (only a truthy rawHtml is
deleted); when includeRawHtml is set, every document keeps its rawHtml
unchanged. The response data document is drawn from these post-processed
docs through the field-preserving legacyDocumentConverter. -/
theorem rawHtml_removed_amended (popt : Option PageOptions) (docs : List Doc) :
    ((∀ po, popt = some po → po.includeRawHtml = false) →
      ∀ d ∈ postProcessDocs popt docs, d.rawHtml = none ∨ d.rawHtml = some "") ∧
    (∀ po, popt = some po → po.includeRawHtml = true →
      (postProcessDocs popt docs).map (fun d => d.rawHtml) =
        docs.map (fun d => d.rawHtml)) := by
  constructor
  · intro hoff d hd
    have hdel : ∀ x : Doc, (deleteRawHtmlIfTruthy x).rawHtml = none ∨
        (deleteRawHtmlIfTruthy x).rawHtml = some "" := by
      intro x
      unfold deleteRawHtmlIfTruthy truthyStr
      cases hx : x.rawHtml with
      | none => simp [hx]
      | some s =>
          by_cases hs : s = ""
          · subst hs
            simp [hx]
          · simp [hx, hs]
    cases popt with
    | none =>
        unfold postProcessDocs at hd
        simp at hd
        obtain ⟨x, _, hx⟩ := hd
        rw [← hx]
        exact hdel x
    | some po =>
        have hro : po.includeRawHtml = false := hoff po rfl
        unfold postProcessDocs at hd
        simp [hro] at hd
        split at hd
        · simp at hd
          obtain ⟨x, _, hx⟩ := hd
          rw [← hx]
          rw [deleteMarkdownIfTruthy_rawHtml]
          exact hdel x
        · simp at hd
          obtain ⟨x, _, hx⟩ := hd
          rw [← hx]
          exact hdel x
  · intro po hpo hon
    subst hpo
    unfold postProcessDocs
    simp [hon]
    split
    · simp [List.map_map, Function.comp_def, deleteMarkdownIfTruthy_rawHtml]
    · rfl

/-- Witness for the amended C8: both halves applied at concrete inputs. -/
theorem rawHtml_removed_amended_witness :
    (({ markdown := some "# Hi", html := none, rawHtml := none, text := none
        error := none } : Doc).rawHtml = none ∨
     ({ markdown := some "# Hi", html := none, rawHtml := none, text := none
        error := none } : Doc).rawHtml = some "") ∧
    (postProcessDocs (some ⟨true, true, false⟩) [sampleDoc]).map (fun d => d.rawHtml) =
      [sampleDoc].map (fun d => d.rawHtml) :=
  ⟨(rawHtml_removed_amended (some ⟨false, true, false⟩)
      [{ markdown := some "# Hi", html := none, rawHtml := some "<x>", text := none
         error := none }]).1
      (fun po h => by cases h; rfl) _ (by decide),
   (rawHtml_removed_amended (some ⟨true, true, false⟩) [sampleDoc]).2
      ⟨true, true, false⟩ rfl rfl⟩

/-- C5: the request body is validated against the scrape request schema
before any scraping work, and any body containing a key outside the closed
ScrapeOptions set fails validation: the entry rejects it as a bad request,
whatever the pipeline would have produced. -/
theorem unknown_key_rejected (raw : RawBody) (k v : String) (jobId : String)
    (outcome : PipelineOutcome)
    (hk : (k, v) ∈ raw.pairs) (hna : allowedScrapeKeys.contains k = false) :
    scrapeEntry raw jobId outcome = .badRequest := by
  have hall : raw.pairs.all (fun kv => allowedScrapeKeys.contains kv.fst) = false := by
    by_contra hcon
    have h2 : raw.pairs.all (fun kv => allowedScrapeKeys.contains kv.fst) = true := by
      revert hcon
      cases raw.pairs.all (fun kv => allowedScrapeKeys.contains kv.fst) <;> simp
    have h3 := (List.all_eq_true.mp h2) (k, v) hk
    rw [hna] at h3
    cases h3
  unfold scrapeEntry scrapeRequestSchemaParse
  rw [hall]
  simp

/-- Witness for C5: a body with the unknown key bogus is rejected. -/
theorem unknown_key_rejected_witness :
    scrapeEntry { pairs := [("url", "https://example.com"), ("bogus", "1")] } "jid"
      (.threw "never run") = .badRequest :=
  unknown_key_rejected { pairs := [("url", "https://example.com"), ("bogus", "1")] }
    "bogus" "1" "jid" (.threw "never run") (by decide) (by decide)

end Firecrawl
